import Mathlib

/-!
Verification of the dynamic plugin configuration engine of
`plugins/configs/api/controller.go`: a shallow embedding of the
reflection-based schema derivation, value binding and value extraction
code, together with models of the plugin lifecycle operations
(create / update / delete / status) and proofs about them.
-/

namespace ConfigApi

/-- The subset of `reflect.Kind` the controller distinguishes. -/
inductive GoKind where
  | kInvalid | kBool
  | kInt | kInt8 | kInt16 | kInt32 | kInt64
  | kUint | kUint8 | kUint16 | kUint32 | kUint64
  | kFloat32 | kFloat64
  | kString | kStruct | kSlice | kMap | kPtr | kIface | kFunc | kChan
  deriving DecidableEq, Repr

/-- Signed integer widths (`int` is 64-bit on the target platform). -/
inductive IntW where
  | iw | iw8 | iw16 | iw32 | iw64
  deriving DecidableEq, Repr

/-- Unsigned integer widths. -/
inductive UintW where
  | uw | uw8 | uw16 | uw32 | uw64
  deriving DecidableEq, Repr

/-- One struct field as reflect exposes it: declared name, `toml` tag
(`none` when the tag is absent, mirroring `StructTag.Lookup`), the
`format` and `required` tags (empty string when absent, mirroring
`StructTag.Get`), whether the field is anonymous (embedded), and its type. -/
structure SField (τ : Type) where
  fname : String
  toml : Option String
  fmtTag : String
  reqTag : String
  anon : Bool
  ftype : τ
  deriving DecidableEq, Repr

/-- Go types as the controller observes them through reflect.  The named
int64 types `config.Duration` and `config.Size` and the named float64 type
`internal.Number` get their own constructors because the code dispatches on
`Type.String()` for them; `tChan` stands for any kind with no field-type
mapping (chan, complex, ...). -/
inductive GoType where
  | tBool
  | tString
  | tInt (w : IntW)
  | tUint (w : UintW)
  | tFloat32
  | tFloat64
  | tDuration
  | tSize
  | tNumber
  | tStruct (sname : String) (fields : List (SField GoType))
  | tSlice (elem : GoType)
  | tMap (elem : GoType)
  | tPtr (elem : GoType)
  | tIface
  | tFunc
  | tChan

/-- Go values.  A `vFloat` carries an exact integer: the controller never
performs float arithmetic, and the only conversions it does in the scenarios
we state are exact on integers.  `vIface` carries the dynamic type of its
contents so extraction can re-dispatch on it.  `vInvalid` is the zero
`reflect.Value`. -/
inductive GoValue where
  | vBool (b : Bool)
  | vInt (w : IntW) (n : Int)
  | vUint (w : UintW) (n : Nat)
  | vFloat (x : Int)
  | vString (s : String)
  | vSlice (xs : List GoValue)
  | vMap (xs : List (String × GoValue))
  | vStruct (xs : List GoValue)
  | vPtr (x : GoValue)
  | vPtrNil
  | vIface (dynT : GoType) (x : GoValue)
  | vIfaceNil
  | vOpaque
  | vInvalid

/-- Result of running a piece of the controller: a normal value, a returned
`error`, or a Go panic. -/
inductive Outcome (α : Type) where
  | ok (a : α)
  | err (msg : String)
  | panicked (msg : String)
  deriving DecidableEq, Repr

def Outcome.isOk {α : Type} : Outcome α → Bool
  | .ok _ => true
  | _ => false

def Outcome.isErr {α : Type} : Outcome α → Bool
  | .err _ => true
  | _ => false

def Outcome.isPanic {α : Type} : Outcome α → Bool
  | .panicked _ => true
  | _ => false

open GoType GoValue

/-- `reflect.Kind` of a type. -/
def GoType.kind : GoType → GoKind
  | tBool => .kBool
  | tString => .kString
  | tInt .iw => .kInt
  | tInt .iw8 => .kInt8
  | tInt .iw16 => .kInt16
  | tInt .iw32 => .kInt32
  | tInt .iw64 => .kInt64
  | tUint .uw => .kUint
  | tUint .uw8 => .kUint8
  | tUint .uw16 => .kUint16
  | tUint .uw32 => .kUint32
  | tUint .uw64 => .kUint64
  | tFloat32 => .kFloat32
  | tFloat64 => .kFloat64
  | tDuration => .kInt64
  | tSize => .kInt64
  | tNumber => .kFloat64
  | tStruct _ _ => .kStruct
  | tSlice _ => .kSlice
  | tMap _ => .kMap
  | tPtr _ => .kPtr
  | tIface => .kIface
  | tFunc => .kFunc
  | tChan => .kChan

/-- `reflect.Type.String()`. -/
def GoType.str : GoType → String
  | tBool => "bool"
  | tString => "string"
  | tInt .iw => "int"
  | tInt .iw8 => "int8"
  | tInt .iw16 => "int16"
  | tInt .iw32 => "int32"
  | tInt .iw64 => "int64"
  | tUint .uw => "uint"
  | tUint .uw8 => "uint8"
  | tUint .uw16 => "uint16"
  | tUint .uw32 => "uint32"
  | tUint .uw64 => "uint64"
  | tFloat32 => "float32"
  | tFloat64 => "float64"
  | tDuration => "config.Duration"
  | tSize => "config.Size"
  | tNumber => "internal.Number"
  | tStruct n _ => n
  | tSlice e => "[]" ++ e.str
  | tMap e => "map[string]" ++ e.str
  | tPtr e => "*" ++ e.str
  | tIface => "interface \x7b\x7d"
  | tFunc => "func()"
  | tChan => "chan"

/-- `reflect.Type.Name()`: the base name of a named type, `""` for
unnamed composite types. -/
def GoType.goName : GoType → String
  | tBool => "bool"
  | tString => "string"
  | tInt .iw => "int"
  | tInt .iw8 => "int8"
  | tInt .iw16 => "int16"
  | tInt .iw32 => "int32"
  | tInt .iw64 => "int64"
  | tUint .uw => "uint"
  | tUint .uw8 => "uint8"
  | tUint .uw16 => "uint16"
  | tUint .uw32 => "uint32"
  | tUint .uw64 => "uint64"
  | tFloat32 => "float32"
  | tFloat64 => "float64"
  | tDuration => "Duration"
  | tSize => "Size"
  | tNumber => "Number"
  | tStruct n _ => ((n.splitOn ".").getLastD n)
  -- (the name after the last dot; only ever inspected on named scalar types
  -- in the theorems below)
  | tSlice _ => ""
  | tMap _ => ""
  | tPtr _ => ""
  | tIface => ""
  | tFunc => ""
  | tChan => ""

/-- Bit width of a signed kind. -/
def IntW.bits : IntW → Nat
  | .iw => 64
  | .iw8 => 8
  | .iw16 => 16
  | .iw32 => 32
  | .iw64 => 64

/-- Bit width of an unsigned kind. -/
def UintW.bits : UintW → Nat
  | .uw => 64
  | .uw8 => 8
  | .uw16 => 16
  | .uw32 => 32
  | .uw64 => 64

/-- Two's-complement truncation, as `reflect.Value.SetInt` performs when the
destination is narrower than 64 bits. -/
def wrapInt (bits : Nat) (n : Int) : Int :=
  (n + 2 ^ (bits - 1)) % 2 ^ bits - 2 ^ (bits - 1)

/-- Truncation for `reflect.Value.SetUint`. -/
def wrapUint (bits : Nat) (n : Nat) : Nat :=
  n % 2 ^ bits

/-- Go's `uint64(x)` for a signed 64-bit `x`. -/
def intToUint64 (n : Int) : Nat :=
  (n % (2 : Int) ^ 64).toNat

/-! ### Syntactic sizes (computable fuel bounds for the recursions below) -/

mutual

/-- Syntactic size of a type; an upper bound for every type traversal. -/
def tySize : GoType → Nat
  | tStruct _ flds => 1 + fldsSize flds
  | tSlice e => 1 + tySize e
  | tMap e => 1 + tySize e
  | tPtr e => 1 + tySize e
  | _ => 1

def fldsSize : List (SField GoType) → Nat
  | [] => 0
  | ⟨_, _, _, _, _, ty⟩ :: rest => 2 + tySize ty + fldsSize rest

end

mutual

/-- Syntactic size of a value; an upper bound for every value traversal. -/
def valSize : GoValue → Nat
  | vSlice xs => 1 + valsSize xs
  | vMap xs => 1 + kvsSize xs
  | vStruct xs => 1 + valsSize xs
  | vPtr x => 1 + valSize x
  | vIface _ x => 1 + valSize x
  | _ => 1

def valsSize : List GoValue → Nat
  | [] => 0
  | x :: rest => 1 + valSize x + valsSize rest

def kvsSize : List (String × GoValue) → Nat
  | [] => 0
  | (_, x) :: rest => 1 + valSize x + kvsSize rest

end

/-! ### Zero values and zero tests -/

mutual

/-- The zero value of a type (`reflect.New(t).Elem()`). -/
def zeroValue : GoType → GoValue
  | tBool => vBool false
  | tString => vString ""
  | tInt w => vInt w 0
  | tUint w => vUint w 0
  | tFloat32 => vFloat 0
  | tFloat64 => vFloat 0
  | tDuration => vInt .iw64 0
  | tSize => vInt .iw64 0
  | tNumber => vFloat 0
  | tStruct _ flds => vStruct (zeroFields flds)
  | tSlice _ => vSlice []
  | tMap _ => vMap []
  | tPtr _ => vPtrNil
  | tIface => vIfaceNil
  | tFunc => vOpaque
  | tChan => vOpaque

def zeroFields : List (SField GoType) → List GoValue
  | [] => []
  | ⟨_, _, _, _, _, ty⟩ :: rest => zeroValue ty :: zeroFields rest

end

mutual

/-- `reflect.Value.IsZero`.  A nil slice/map is modelled as the empty one
(the controller never distinguishes a nil collection from an empty one). -/
def isZeroVal : GoValue → Bool
  | vBool b => !b
  | vInt _ n => n == 0
  | vUint _ n => n == 0
  | vFloat x => x == 0
  | vString s => s == ""
  | vSlice xs => xs.isEmpty
  | vMap xs => xs.isEmpty
  | vStruct xs => allZero xs
  | vPtr _ => false
  | vPtrNil => true
  | vIface _ _ => false
  | vIfaceNil => true
  | vOpaque => true
  | vInvalid => true

def allZero : List GoValue → Bool
  | [] => true
  | x :: rest => isZeroVal x && allZero rest

end

/-! ### The naming convention (`toSnakeCase`) -/

def isUpperA (c : Char) : Bool := 'A' ≤ c && c ≤ 'Z'
def isLowerA (c : Char) : Bool := 'a' ≤ c && c ≤ 'z'
def isDigitA (c : Char) : Bool := '0' ≤ c && c ≤ '9'

/-- `isExported`: the declared name starts with an upper-case letter
(field names are ASCII identifiers). -/
def isExportedName (s : String) : Bool :=
  match s.toList with
  | c :: _ => isUpperA c
  | [] => false

/-- `matchFirstCapital.ReplaceAllString(str, "${1}_${2}")` for the pattern
`(.)([A-Z][a-z]+)`: leftmost, non-overlapping matches of any character
followed by an upper-case letter and a maximal non-empty run of lower-case
letters, each replaced by the same text with an underscore inserted after
the first character. -/
def replFirstCapF : Nat → List Char → List Char
  | 0, s => s
  | _ + 1, [] => []
  | _ + 1, [c] => [c]
  | _ + 1, [c, u] => [c, u]
  | fuel + 1, c :: u :: l :: rest =>
    if isUpperA u && isLowerA l then
      let lows := (l :: rest).takeWhile isLowerA
      let rest2 := (l :: rest).dropWhile isLowerA
      c :: '_' :: u :: (lows ++ replFirstCapF fuel rest2)
    else
      c :: replFirstCapF fuel (u :: l :: rest)

def replFirstCap (s : List Char) : List Char :=
  -- every recursion step consumes at least one character, so this fuel is
  -- never exhausted
  replFirstCapF (s.length + 1) s

/-- `matchAllCapitals.ReplaceAllString(snakeStr, "${1}_${2}")` for the pattern
`([a-z0-9])([A-Z])`. -/
def replAllCaps : List Char → List Char
  | [] => []
  | [a] => [a]
  | a :: b :: rest =>
    if (isLowerA a || isDigitA a) && isUpperA b then
      a :: '_' :: b :: replAllCaps rest
    else
      a :: replAllCaps (b :: rest)

/-- The convention-derived name: both regex passes followed by
`strings.ToLower` (ASCII, as field names are Go identifiers). -/
def snakeDerived (s : String) : String :=
  String.mk ((replAllCaps (replFirstCap s.toList)).map Char.toLower)

/-- `toSnakeCase(str, sf)`: the explicit `toml` override wins when present
(`ok = false` when it is the exclusion sentinel `"-"`); otherwise the
convention-derived name. -/
def toSnakeCase (str : String) (tomlTag : Option String) : String × Bool :=
  match tomlTag with
  | some t => if t = "-" then ("", false) else (t, true)
  | none => (snakeDerived str, true)

/-- The naming rule exactly as the spec words it: insert an underscore
before each upper-case letter that follows a lower-case letter or digit
(equivalently: before each upper-case run that follows a lower-case
letter or digit), then lower-case the whole name. -/
def specSnakeName (s : String) : String :=
  String.mk ((specBoundaries s.toList).map Char.toLower)
where
  specBoundaries : List Char → List Char
    | [] => []
    | [a] => [a]
    | a :: b :: rest =>
      if (isLowerA a || isDigitA a) && isUpperA b then
        a :: '_' :: specBoundaries (b :: rest)
      else
        a :: specBoundaries (b :: rest)

/-! ### Sorting the field names (`sort.Strings(keys)`) -/

/-- Lexicographic strict order on character lists, by code point (for the
field names at hand — ASCII — this agrees with Go's byte-wise `<`). -/
def strLtL : List Char → List Char → Bool
  | [], [] => false
  | [], _ :: _ => true
  | _ :: _, [] => false
  | c :: cs, d :: ds =>
    if c.val < d.val then true
    else if d.val < c.val then false
    else strLtL cs ds

/-- `s <= t` on strings, as used by `sort.Strings`. -/
def strLe (s t : String) : Bool := ! strLtL t.data s.data

/-- Insert an entry into a key-sorted association list. -/
def insertEntry (e : String × GoValue) :
    List (String × GoValue) → List (String × GoValue)
  | [] => [e]
  | f :: rest =>
    if strLe e.1 f.1 then e :: f :: rest else f :: insertEntry e rest

/-- `sort.Strings` over the request's field names, modelled as a sort of the
association list by key.  The request is a Go map, so keys are distinct and
any sorting algorithm produces the same sequence. -/
def sortEntries : List (String × GoValue) → List (String × GoValue)
  | [] => []
  | e :: rest => insertEntry e (sortEntries rest)

theorem sizeOf_insertEntry (e : String × GoValue)
    (l : List (String × GoValue)) :
    sizeOf (insertEntry e l) = 1 + sizeOf e + sizeOf l := by
  induction l with
  | nil => simp [insertEntry]
  | cons f rest ih =>
      simp only [insertEntry]
      split
      · simp only [List.cons.sizeOf_spec]
        try omega
      · simp only [List.cons.sizeOf_spec, ih]
        try omega

theorem sizeOf_sortEntries (l : List (String × GoValue)) :
    sizeOf (sortEntries l) = sizeOf l := by
  induction l with
  | nil => simp [sortEntries]
  | cons e rest ih =>
      simp only [sortEntries, sizeOf_insertEntry, ih, List.cons.sizeOf_spec]

/-! ### `time.ParseDuration` and `time.Duration.String` -/

def maxI64 : Int := 2 ^ 63 - 1

def digitVal (c : Char) : Int := ((c.toNat - '0'.toNat : Nat) : Int)

/-- `leadingInt`: consume leading decimal digits accumulating an int64;
`none` models the overflow error `errLeadingInt`. -/
def leadingInt (x : Int) : List Char → Option (Int × List Char)
  | [] => some (x, [])
  | c :: rest =>
    if isDigitA c then
      if x > maxI64 / 10 then none
      else
        let y := x * 10 + digitVal c
        if y > maxI64 then none
        else leadingInt y rest
    else some (x, c :: rest)

/-- `leadingFraction`: consume leading digits of the fractional part; once the
accumulator would overflow, further digits are consumed but ignored. -/
def leadingFraction (x : Int) (scale : Int) (overflow : Bool) :
    List Char → Int × Int × List Char
  | [] => (x, scale, [])
  | c :: rest =>
    if isDigitA c then
      if overflow then leadingFraction x scale true rest
      else if x > maxI64 / 10 then leadingFraction x scale true rest
      else
        let y := x * 10 + digitVal c
        if y > maxI64 then leadingFraction x scale true rest
        else leadingFraction y (scale * 10) false rest
    else (x, scale, c :: rest)

/-- The `unitMap` of `time.ParseDuration`, in nanoseconds. -/
def unitNs (u : String) : Option Int :=
  if u = "ns" then some 1
  else if u = "us" then some 1000
  else if u = "µs" then some 1000
  else if u = "μs" then some 1000
  else if u = "ms" then some 1000000
  else if u = "s" then some 1000000000
  else if u = "m" then some 60000000000
  else if u = "h" then some 3600000000000
  else none

/-- The main loop of `time.ParseDuration`.  Every iteration consumes at least
one character, so `fuel = length + 1` never runs out; the fractional
contribution `int64(float64(f) * (float64(unit)/scale))` is modelled with
exact integer arithmetic, which agrees with the float computation on the
magnitudes the controller encounters. -/
def parseDurationLoop (orig : String) : Nat → Int → List Char → Outcome Int
  | 0, _, _ => .err ("time: invalid duration " ++ orig)
  | _ + 1, d, [] => .ok d
  | fuel + 1, d, c :: cs =>
    let s := c :: cs
    if ¬(c = '.' ∨ isDigitA c) then .err ("time: invalid duration " ++ orig)
    else
      match leadingInt 0 s with
      | none => .err ("time: invalid duration " ++ orig)
      | some (v, s1) =>
        let pre := decide (s1.length ≠ s.length)
        let fr :=
          match s1 with
          | '.' :: restf =>
            let q := leadingFraction 0 1 false restf
            (q.1, q.2.1, q.2.2, decide (q.2.2.length ≠ restf.length))
          | _ => (0, 1, s1, false)
        let f := fr.1
        let scale := fr.2.1
        let s2 := fr.2.2.1
        let post := fr.2.2.2
        if ¬pre ∧ ¬post then .err ("time: invalid duration " ++ orig)
        else
          let u := s2.takeWhile (fun ch => ¬(ch = '.' ∨ isDigitA ch))
          let s3 := s2.dropWhile (fun ch => ¬(ch = '.' ∨ isDigitA ch))
          if u.isEmpty then .err ("time: missing unit in duration " ++ orig)
          else
            match unitNs (String.mk u) with
            | none =>
              .err ("time: unknown unit " ++ String.mk u ++
                " in duration " ++ orig)
            | some unit =>
              if v > maxI64 / unit then
                .err ("time: invalid duration " ++ orig)
              else
                let v2 := v * unit + f * unit / scale
                if v2 > maxI64 then .err ("time: invalid duration " ++ orig)
                else
                  let d1 := d + v2
                  if d1 > maxI64 then .err ("time: invalid duration " ++ orig)
                  else parseDurationLoop orig fuel d1 s3

/-- `time.ParseDuration`. -/
def parseDuration (s : String) : Outcome Int :=
  let cs := s.toList
  let sign :=
    match cs with
    | '-' :: r => (true, r)
    | '+' :: r => (false, r)
    | r => (false, r)
  let neg := sign.1
  let cs1 := sign.2
  if cs1 = ['0'] then .ok 0
  else if cs1.isEmpty then .err ("time: invalid duration " ++ s)
  else
    match parseDurationLoop s (cs1.length + 1) 0 cs1 with
    | .ok d => .ok (if neg then -d else d)
    | r => r

/-- `fmtFrac`: the fractional digits (with leading `'.'`, trailing zeros
omitted) and the remaining integer part.  Digits are processed least
significant first, exactly as the Go code prepends into its buffer. -/
def fmtFrac (v : Nat) (prec : Nat) : List Char × Nat :=
  let r := go v prec [] false
  (if r.2.2 then '.' :: r.1 else r.1, r.2.1)
where
  go : Nat → Nat → List Char → Bool → List Char × Nat × Bool
    | v, 0, acc, print => (acc, v, print)
    | v, i + 1, acc, print =>
      let digit := v % 10
      let print2 := print || digit ≠ 0
      let acc2 := if print2 then Char.ofNat (digit + 48) :: acc else acc
      go (v / 10) i acc2 print2

/-- `time.Duration.String()`. -/
def durationString (d : Int) : String :=
  let neg := d < 0
  let sgn := if neg then "-" else ""
  let u := d.natAbs
  if u < 1000000000 then
    if u = 0 then "0s"
    else if u < 1000 then sgn ++ toString u ++ "ns"
    else if u < 1000000 then
      let r := fmtFrac u 3
      sgn ++ toString r.2 ++ String.mk r.1 ++ "µs"
    else
      let r := fmtFrac u 6
      sgn ++ toString r.2 ++ String.mk r.1 ++ "ms"
  else
    let r := fmtFrac u 9
    let secs := r.2 % 60
    let rest := r.2 / 60
    let secPart := toString secs ++ String.mk r.1 ++ "s"
    let text :=
      if rest > 0 then
        let mins := rest % 60
        let hours := rest / 60
        let minPart := toString mins ++ "m" ++ secPart
        if hours > 0 then toString hours ++ "h" ++ minPart else minPart
      else secPart
    sgn ++ text

/-! ### Byte-size text (`units.ParseStrictBytes`, `config.Size.MarshalText`) -/

/-- Model of the third-party `units.ParseStrictBytes` (alecthomas/units):
an integer magnitude followed by a case-sensitive byte unit, SI suffixes
1000-based and IEC suffixes 1024-based; a missing or unknown unit is a
parse error.  Fractional magnitudes are not modelled (no claim depends on
them). -/
def sizeUnitMult (u : String) : Option Int :=
  if u = "B" then some 1
  else if u = "KB" then some 1000
  else if u = "MB" then some 1000000
  else if u = "GB" then some 1000000000
  else if u = "TB" then some 1000000000000
  else if u = "PB" then some 1000000000000000
  else if u = "EB" then some 1000000000000000000
  else if u = "KiB" then some 1024
  else if u = "MiB" then some (1024 ^ 2)
  else if u = "GiB" then some (1024 ^ 3)
  else if u = "TiB" then some (1024 ^ 4)
  else if u = "PiB" then some (1024 ^ 5)
  else if u = "EiB" then some (1024 ^ 6)
  else none

def parseSize (s : String) : Outcome Int :=
  let cs := s.toList
  let digits := cs.takeWhile isDigitA
  let unit := cs.dropWhile isDigitA
  if digits.isEmpty then .err ("units: invalid byte quantity " ++ s)
  else
    match sizeUnitMult (String.mk unit) with
    | none => .err ("units: unknown unit in " ++ s)
    | some m =>
      let n := digits.foldl (fun acc c => acc * 10 + digitVal c) 0
      .ok (n * m)

/-- Modelled from the spec: the repository's `config.Size.MarshalText`
(the `config` package is not under `src/`) renders a byte count through
the byte-size text grammar of §6 ("numeric magnitude plus byte-unit
suffix"); we render the exact byte count with the `B` unit. -/
def sizeText (n : Int) : String := toString n ++ "B"

/-! ### The field resolver (`getFieldByName`) -/

/-- `reflect.Type.Elem()` (identity on non-container types). -/
def GoType.elemT : GoType → GoType
  | tPtr e => e
  | tSlice e => e
  | tMap e => e
  | t => t

/-- `reflect.Kind.String()`. -/
def kindName : GoKind → String
  | .kInvalid => "invalid"
  | .kBool => "bool"
  | .kInt => "int"
  | .kInt8 => "int8"
  | .kInt16 => "int16"
  | .kInt32 => "int32"
  | .kInt64 => "int64"
  | .kUint => "uint"
  | .kUint8 => "uint8"
  | .kUint16 => "uint16"
  | .kUint32 => "uint32"
  | .kUint64 => "uint64"
  | .kFloat32 => "float32"
  | .kFloat64 => "float64"
  | .kString => "string"
  | .kStruct => "struct"
  | .kSlice => "slice"
  | .kMap => "map"
  | .kPtr => "ptr"
  | .kIface => "interface"
  | .kFunc => "func"
  | .kChan => "chan"

/-- Dynamic `reflect.Kind` of a value. -/
def dynKind : GoValue → GoKind
  | vBool _ => .kBool
  | vInt .iw _ => .kInt
  | vInt .iw8 _ => .kInt8
  | vInt .iw16 _ => .kInt16
  | vInt .iw32 _ => .kInt32
  | vInt .iw64 _ => .kInt64
  | vUint .uw _ => .kUint
  | vUint .uw8 _ => .kUint8
  | vUint .uw16 _ => .kUint16
  | vUint .uw32 _ => .kUint32
  | vUint .uw64 _ => .kUint64
  | vFloat _ => .kFloat64
  | vString _ => .kString
  | vSlice _ => .kSlice
  | vMap _ => .kMap
  | vStruct _ => .kStruct
  | vPtr _ => .kPtr
  | vPtrNil => .kPtr
  | vIface _ _ => .kIface
  | vIfaceNil => .kInvalid
  | vOpaque => .kFunc
  | vInvalid => .kInvalid

/-- Dynamic type of a (scalar) value, for storing into an interface slot. -/
def dynTypeOf : GoValue → GoType
  | vBool _ => tBool
  | vInt w _ => tInt w
  | vUint w _ => tUint w
  | vFloat _ => tFloat64
  | vString _ => tString
  | vSlice _ => tSlice tIface
  | vMap _ => tMap tIface
  | _ => tIface

/-- Box a value into an `interface{}` slot (`to.Set(from)` on an
interface-kind destination). -/
def mkIfaceVal (v : GoValue) : GoValue := vIface (dynTypeOf v) v

/-- Unwrap an interface-kind value
(`if t.Kind() == reflect.Interface { t = reflect.ValueOf(t.Interface()) }`). -/
def stripIfaceV : GoValue → GoValue
  | vIface _ x => x
  | x => x

def quoteStr (s : String) : String := "\"" ++ s ++ "\""

def IntW.ofType : GoType → IntW
  | tInt w => w
  | _ => .iw64

def UintW.ofType : GoType → UintW
  | tUint w => w
  | _ => .uw64

mutual

/-- `getFieldByName(destStruct, fieldName)`: resolve an external name to the
index path of a struct field.  Returns the path, the field's declared type
and whether the resolved `reflect.Value` is settable (`CanSet`: false as soon
as the field, or any embedded field on the path to it, is unexported).  The
destination is the addressable struct obtained from the pointer passed to
`setFieldConfig`.  The fuel decreases on every recursive call while the
syntactic size of the traversed type strictly decreases, so the wrapper's
fuel is never exhausted. -/
def getFieldByNameF : Nat → GoType → String → Option (List Nat × GoType × Bool)
  | 0, _, _ => none
  | fuel + 1, t, fieldName =>
    match t with
    | tPtr e => getFieldByNameF fuel e fieldName
    | tStruct _ flds => findFieldF fuel flds fieldName 0
    | _ => none

/-- The field loop of `getFieldByName`: for each field, first descend into an
anonymous struct field, then compare the `toml` tag, then the convention
name (exported fields only). -/
def findFieldF : Nat → List (SField GoType) → String → Nat →
    Option (List Nat × GoType × Bool)
  | 0, _, _, _ => none
  | _ + 1, [], _, _ => none
  | fuel + 1, ⟨fn, tm, _, _, an, ty⟩ :: rest, fieldName, idx =>
    let viaAnon : Option (List Nat × GoType × Bool) :=
      if ty.kind = .kStruct && an then
        match ty with
        | tStruct _ sub =>
          (findFieldF fuel sub fieldName 0).map fun r =>
            (idx :: r.1, r.2.1, isExportedName fn && r.2.2)
        | _ => none
      else none
    match viaAnon with
    | some r => some r
    | none =>
      if tm.getD "" = fieldName then
        some ([idx], ty, isExportedName fn)
      else
        let sn := toSnakeCase fn tm
        if sn.2 && sn.1 = fieldName && isExportedName fn then
          some ([idx], ty, isExportedName fn)
        else findFieldF fuel rest fieldName (idx + 1)

end

def getFieldByName (t : GoType) (fieldName : String) :
    Option (List Nat × GoType × Bool) :=
  getFieldByNameF (tySize t + 1) t fieldName

def findField (flds : List (SField GoType)) (fieldName : String) (idx : Nat) :
    Option (List Nat × GoType × Bool) :=
  findFieldF (fldsSize flds + 1) flds fieldName idx

/-- Read the struct component at an index path. -/
def getPath (v : GoValue) (path : List Nat) : GoValue :=
  match path with
  | [] => v
  | i :: rest =>
    match v with
    | vStruct xs => getPath (xs.getD i vInvalid) rest
    | _ => vInvalid

/-- Replace the struct component at an index path. -/
def updatePath (v : GoValue) (path : List Nat) (newv : GoValue) : GoValue :=
  match path with
  | [] => newv
  | i :: rest =>
    match v with
    | vStruct xs => vStruct (xs.set i (updatePath (xs.getD i vInvalid) rest newv))
    | _ => v

def Outcome.map {α β : Type} (f : α → β) : Outcome α → Outcome β
  | .ok a => .ok (f a)
  | .err e => .err e
  | .panicked e => .panicked e

/-- Scalar-element branch of the map case of `setObject`: entries are copied
with `SetMapIndex` without coercion, so the source value's dynamic type must
be identical to the element type (or the element type an interface). -/
def dynAssignable (et : GoType) (x : GoValue) : Bool :=
  match et, x with
  | tBool, vBool _ => true
  | tInt w, vInt w' _ => w = w'
  | tUint w, vUint w' _ => w = w'
  | tFloat64, vFloat _ => true
  | tString, vString _ => true
  | _, _ => false

def setMapScalarCopy (et : GoType) :
    List (String × GoValue) → Outcome (List (String × GoValue))
  | [] => .ok []
  | (k, x0) :: rest =>
    let x := stripIfaceV x0
    if et.kind = .kIface || dynAssignable et x then
      match setMapScalarCopy et rest with
      | .ok vs => .ok ((k, x) :: vs)
      | r => r
    else
      .panicked ("reflect.Value.SetMapIndex: value of type " ++
        kindName (dynKind x) ++ " is not assignable to type " ++ et.str)

mutual

/-- The loop body of `setFieldConfig` over the (sorted) request entries;
`t`/`v` is the destination struct.  Throughout this family the fuel
decreases on every recursive call while the syntactic size of the source
data strictly decreases, so the fuel supplied by the wrappers below is
never exhausted. -/
def setFieldsF : Nat → List (String × GoValue) → GoType → GoValue →
    Outcome GoValue
  | 0, _, _, _ => .panicked "model: fuel exhausted (unreachable)"
  | _ + 1, [], _, v => .ok v
  | fuel + 1, (k, x) :: rest, t, v =>
    match getFieldByName t k with
    | none => setFieldsF fuel rest t v
    | some (path, ft, settable) =>
      if !settable then
        .err ("cannot set " ++ k ++ " (" ++ ft.goName ++ ")")
      else
        match setObjectF fuel x ft (getPath v path) with
        | .ok fv => setFieldsF fuel rest t (updatePath v path fv)
        | .err e => .err ("Could not set field " ++ quoteStr k ++ ": " ++ e)
        | .panicked e => .panicked e

/-- `setObject(from, to, destType)`: coerce one source value into a
destination slot.  The result is the new value of the slot; `err` is a Go
`error` return and `panicked` a reflect panic. -/
def setObjectF : Nat → GoValue → GoType → GoValue → Outcome GoValue
  | 0, _, _, _ => .panicked "model: fuel exhausted (unreachable)"
  | fuel + 1, frm, toT, cur =>
    match frm with
    | vIface _ x => setObjectF fuel x toT cur
    | vBool b =>
      let pr := if toT.kind = .kPtr then (toT.elemT, true) else (toT, false)
      let wrapRes := fun (r : GoValue) => if pr.2 then vPtr r else r
      -- NOTE: the bool case never rebinds destType, but `to` is re-pointed at
      -- the freshly allocated element, so only `to`'s kind matters below.
      if pr.1.kind = .kIface then .ok (wrapRes (mkIfaceVal (vBool b)))
      else if pr.1.kind = .kBool then .ok (wrapRes (vBool b))
      else
        .panicked ("reflect: call of reflect.Value.SetBool on " ++
          kindName pr.1.kind ++ " Value")
    | vString str =>
      let pr := if toT.kind = .kPtr then (toT.elemT, true) else (toT, false)
      let wrapRes := fun (r : GoValue) => if pr.2 then vPtr r else r
      if pr.1.str = "time.Duration" ∨ pr.1.str = "config.Duration" then
        match parseDuration str with
        | .ok d => .ok (wrapRes (vInt .iw64 d))
        | .err e => .err ("Couldn't parse duration " ++ quoteStr str ++ ": " ++ e)
        | .panicked e => .panicked e
      else if pr.1.str = "config.Size" then
        match parseSize str with
        | .ok n => .ok (wrapRes (vInt .iw64 n))
        | .err e => .err ("Couldn't parse size " ++ quoteStr str ++ ": " ++ e)
        | .panicked e => .panicked e
      else
        match pr.1 with
        | tString => .ok (wrapRes (vString str))
        | tIface => .ok (wrapRes (mkIfaceVal (vString str)))
        | e =>
          .panicked
            ("reflect.Set: value of type string is not assignable to type "
              ++ e.str)
    | vInt w n =>
      let pr := if toT.kind = .kPtr then (toT.elemT, true) else (toT, false)
      let wrapRes := fun (r : GoValue) => if pr.2 then vPtr r else r
      if pr.1.str = "internal.Number" then .ok (wrapRes (vFloat n))
      else
        match pr.1.kind with
        | .kUint | .kUint8 | .kUint16 | .kUint32 | .kUint64 =>
          .ok (wrapRes (vUint (UintW.ofType pr.1)
            (wrapUint (UintW.ofType pr.1).bits (intToUint64 n))))
        | .kInt | .kInt8 | .kInt16 | .kInt32 | .kInt64 =>
          .ok (wrapRes (vInt (IntW.ofType pr.1)
            (wrapInt (IntW.ofType pr.1).bits n)))
        | .kFloat32 | .kFloat64 =>
          .panicked ("reflect: call of reflect.Value.Float on " ++
            kindName (tInt w).kind ++ " Value")
        | .kIface => .ok (wrapRes (vIface (tInt w) (vInt w n)))
        | k => .err ("cannot coerce int type into " ++ kindName k)
    | vUint w n =>
      -- NOTE: unlike the int case, destType is NOT rebound after
      -- dereferencing a pointer destination (commented out in the source).
      let wrapped := toT.kind = .kPtr
      let toK := if wrapped then toT.elemT else toT
      let wrapRes := fun (r : GoValue) => if wrapped then vPtr r else r
      if toT.str = "internal.Number" then .ok (vFloat n)
      else if toK.kind = .kIface then
        .ok (wrapRes (vIface (tUint w) (vUint w n)))
      else
        match toK.kind with
        | .kUint | .kUint8 | .kUint16 | .kUint32 | .kUint64 =>
          .ok (wrapRes (vUint (UintW.ofType toK)
            (wrapUint (UintW.ofType toK).bits n)))
        | k =>
          .panicked ("reflect: call of reflect.Value.SetUint on " ++
            kindName k ++ " Value")
    | vFloat x =>
      -- destType is likewise NOT rebound here.
      let wrapped := toT.kind = .kPtr
      let toK := if wrapped then toT.elemT else toT
      let wrapRes := fun (r : GoValue) => if wrapped then vPtr r else r
      if toT.str = "internal.Number" then .ok (vFloat x)
      else if toK.kind = .kIface then .ok (wrapRes (vIface tFloat64 (vFloat x)))
      else
        match toK.kind with
        | .kFloat32 | .kFloat64 => .ok (wrapRes (vFloat x))
        | k =>
          .panicked ("reflect: call of reflect.Value.SetFloat on " ++
            kindName k ++ " Value")
    | vSlice xs =>
      if toT.kind = .kPtr then
        match toT.elemT with
        | tSlice et =>
          match setSliceElemsF fuel et xs with
          | .ok vs =>
            match cur with
            | vPtr _ => .ok (vPtr (vSlice vs))
            | _ => .panicked "reflect: Set using zero Value argument"
          | .err e => .err e
          | .panicked e => .panicked e
        | e => .err ("error setting slice field into " ++ kindName e.kind)
      else
        match toT with
        | tSlice et => (setSliceElemsF fuel et xs).map vSlice
        | _ => .err ("error setting slice field into " ++ kindName toT.kind)
    | vMap m =>
      let pr := if toT.kind = .kPtr then (toT.elemT, true) else (toT, false)
      let wrapRes := fun (r : GoValue) => if pr.2 then vPtr r else r
      match pr.1 with
      | tStruct sn sf =>
        (setFieldsF fuel (sortEntries m) (tStruct sn sf)
          (zeroValue (tStruct sn sf))).map wrapRes
      | tMap et =>
        match et.kind with
        | .kIface | .kInt | .kInt8 | .kInt16 | .kInt32 | .kInt64
        | .kUint | .kUint8 | .kUint16 | .kUint32 | .kUint64
        | .kFloat32 | .kFloat64 | .kBool | .kString =>
          (setMapScalarCopy et m).map (fun es => wrapRes (vMap es))
        | .kSlice =>
          (setMapSliceEntriesF fuel et m).map (fun es => wrapRes (vMap es))
        | .kStruct =>
          (setMapStructEntriesF fuel et m).map (fun es => wrapRes (vMap es))
        | k =>
          .err ("can't write settings into map of type map[string]" ++
            kindName k)
      | e => .err ("Cannot load map into " ++ quoteStr (kindName e.kind))
    | frm =>
      .err ("cannot convert unknown type " ++ kindName (dynKind frm) ++
        " to " ++ toT.str)

/-- Element loop of the slice case of `setObject`. -/
def setSliceElemsF : Nat → GoType → List GoValue → Outcome (List GoValue)
  | 0, _, _ => .panicked "model: fuel exhausted (unreachable)"
  | _ + 1, _, [] => .ok []
  | fuel + 1, et, x :: rest =>
    match setObjectF fuel x et (zeroValue et) with
    | .ok v =>
      match setSliceElemsF fuel et rest with
      | .ok vs => .ok (v :: vs)
      | r => r
    | .err e => .err ("couldn't set slice element: " ++ e)
    | .panicked e => .panicked e

/-- Slice-element branch of the map case of `setObject`: each value is set
through a freshly allocated `*[]T`. -/
def setMapSliceEntriesF : Nat → GoType → List (String × GoValue) →
    Outcome (List (String × GoValue))
  | 0, _, _ => .panicked "model: fuel exhausted (unreachable)"
  | _ + 1, _, [] => .ok []
  | fuel + 1, et, (k, x) :: rest =>
    match setObjectF fuel x (tPtr et) (vPtr (zeroValue et)) with
    | .ok (vPtr v) =>
      match setMapSliceEntriesF fuel et rest with
      | .ok vs => .ok ((k, v) :: vs)
      | r => r
    | .ok _ => .panicked "slice entry: unexpected non-pointer result"
    | .err e => .err ("could not set slice: " ++ e)
    | .panicked e => .panicked e

/-- Struct-element branch of the map case of `setObject`: each value must be
a nested field map and is bound into a fresh element with `setFieldConfig`. -/
def setMapStructEntriesF : Nat → GoType → List (String × GoValue) →
    Outcome (List (String × GoValue))
  | 0, _, _ => .panicked "model: fuel exhausted (unreachable)"
  | _ + 1, _, [] => .ok []
  | fuel + 1, et, (k, x) :: rest =>
    match x with
    | vMap m =>
      match setFieldsF fuel (sortEntries m) et (zeroValue et) with
      | .ok v =>
        match setMapStructEntriesF fuel et rest with
        | .ok vs => .ok ((k, v) :: vs)
        | r => r
      | .err e => .err ("could not set struct: " ++ e)
      | .panicked e => .panicked e
    | _ =>
      .panicked ("interface conversion: interface \x7b\x7d is " ++
        kindName (dynKind x) ++ ", not map[string]interface \x7b\x7d")

end

/-- `setObject` with ample fuel: the recursion depth is bounded by the size
of the source value. -/
def setObject (frm : GoValue) (toT : GoType) (cur : GoValue) : Outcome GoValue :=
  setObjectF (valSize frm + 1) frm toT cur

/-- The entry loop of `setFieldConfig` with ample fuel. -/
def setFields (entries : List (String × GoValue)) (t : GoType) (v : GoValue) :
    Outcome GoValue :=
  setFieldsF (kvsSize entries + 1) entries t v

/-- `setFieldConfig(cfg, p)`: sort the request's field names and bind each
one onto the destination (a pointer to a struct). -/
def setFieldConfig (cfg : List (String × GoValue)) (t : GoType) (v : GoValue) :
    Outcome GoValue :=
  match t, v with
  | tPtr e, vPtr inner => (setFields (sortEntries cfg) e inner).map vPtr
  | tPtr _, _ => .panicked "reflect: call of reflect.Value.Interface on zero Value"
  | _, _ => setFields (sortEntries cfg) t v

/-! ### Schema derivation (`getFieldConfig`) -/

/-- `FieldType`: the closed enumeration of field type tags advertised to
external tooling (`""`, `string`, `integer`, `duration`, `size`, `float`,
`bool`, `any`, `array`, `object`, `map`). -/
inductive FieldType where
  | unknown
  | fString
  | fInteger
  | fDuration
  | fSize
  | fFloat
  | fBool
  | fAny
  | fArray
  | fObject
  | fMap
  deriving DecidableEq, Repr

/-- `FieldConfig` describes a single field of a plugin's schema. -/
inductive FieldConfig where
  | mk (ftype : FieldType) (deflt : Option GoValue) (format : String)
      (required : Bool) (subType : FieldType)
      (subFields : List (String × FieldConfig))

def FieldConfig.ftype : FieldConfig → FieldType
  | .mk t _ _ _ _ _ => t

def FieldConfig.subType : FieldConfig → FieldType
  | .mk _ _ _ _ st _ => st

def FieldConfig.subFields : FieldConfig → List (String × FieldConfig)
  | .mk _ _ _ _ _ sf => sf

/-- Strip one pointer layer. -/
def derefPtr : GoType → GoType
  | tPtr e => e
  | t => t

/-- `getFieldType`: translate reflect types to API field types.  Note that
the named int64 types `config.Duration` / `config.Size` have kind `Int64`
and therefore map to `integer`; the `duration`/`size` branches fire only
for the struct-kind `internal.Duration` / `internal.Size` of older
releases. -/
def getFieldType (t0 : GoType) : FieldType :=
  let t := derefPtr t0
  match t.kind with
  | .kString => .fString
  | .kInt | .kInt8 | .kInt16 | .kInt32 | .kInt64
  | .kUint | .kUint8 | .kUint16 | .kUint32 | .kUint64 => .fInteger
  | .kFloat32 | .kFloat64 => .fFloat
  | .kBool => .fBool
  | .kSlice => .fArray
  | .kMap => .fMap
  | .kStruct =>
    if t.str = "internal.Duration" || t.str = "config.Duration" then .fDuration
    else if t.str = "internal.Size" || t.str = "config.Size" then .fSize
    else .fObject
  | _ => .unknown

/-- `getFieldTypeFromStructField`: as `getFieldType`, but an unknown kind on
a struct field is a panic, never a value. -/
def getFieldTypeFromStructField (fname : String) (ft : GoType) :
    Outcome FieldType :=
  let result := getFieldType ft
  if result = .unknown then
    .panicked ("unknown type, name: " ++ quoteStr fname ++ ", string: " ++
      quoteStr ft.str)
  else .ok result

/-- `isInternalStructFieldType`. -/
def isInternalStructFieldType (t : GoType) : Bool :=
  t.str = "internal.Duration" || t.str = "config.Duration" ||
    t.str = "internal.Size" || t.str = "config.Size"

/-- `hasSubType`: the field has a subtype (map, slice, struct other than the
internal scalar structs). -/
def hasSubType (t0 : GoType) : Bool :=
  let t := derefPtr t0
  match t.kind with
  | .kSlice | .kMap => true
  | .kStruct =>
    if t.str = "internal.Duration" || t.str = "config.Duration" ||
        t.str = "internal.Size" || t.str = "config.Size" then false
    else true
  | _ => false

/-- `getSubTypeType`, total in the model: every call site in the controller
guards it with `hasSubType` or a struct-kind check, so the panic for other
kinds is unreachable; we return the type unchanged there. -/
def subTypeT (t0 : GoType) : GoType :=
  let t := derefPtr t0
  match t with
  | tSlice e => derefPtr e
  | tMap e => derefPtr e
  | t => t

/-- Update-or-append into an association list, the model of a write into a
Go map preserving first-insertion order. -/
def insertKV {α : Type} (k : String) (x : α) :
    List (String × α) → List (String × α)
  | [] => [(k, x)]
  | (k', y) :: rest =>
    if k' = k then (k, x) :: rest else (k', y) :: insertKV k x rest

theorem sizeOf_derefPtr_le (t : GoType) : sizeOf (derefPtr t) ≤ sizeOf t := by
  cases t <;> simp [derefPtr] <;> omega

theorem sizeOf_subTypeTAux_le (t : GoType) :
    sizeOf (match t with
      | tSlice e => derefPtr e
      | tMap e => derefPtr e
      | t => t) ≤ sizeOf t := by
  cases t <;> simp only [] <;>
    first
      | omega
      | (rename_i e
         have h := sizeOf_derefPtr_le e
         simp only [GoType.tSlice.sizeOf_spec, GoType.tMap.sizeOf_spec]
         omega)

theorem sizeOf_subTypeT_le (t : GoType) : sizeOf (subTypeT t) ≤ sizeOf t := by
  have h1 := sizeOf_subTypeTAux_le (derefPtr t)
  have h2 := sizeOf_derefPtr_le t
  calc sizeOf (subTypeT t) ≤ sizeOf (derefPtr t) := h1
    _ ≤ sizeOf t := h2

mutual

/-- `getFieldConfig(p, cfg)`: derive the schema of a plugin struct, `v` being
the live value (a fresh zero instance when reached through `reflect.New`).
The resulting association list models the populated Go map in first-insertion
order.  The fuel decreases on every recursive call while the syntactic size
of the traversed type strictly decreases, so the wrapper's fuel is never
exhausted. -/
def getFieldConfigF : Nat → GoType → GoValue →
    Outcome (List (String × FieldConfig))
  | 0, _, _ => .panicked "model: fuel exhausted (unreachable)"
  | fuel + 1, t, v =>
    match t with
    | tPtr e =>
      getFieldConfigF fuel e (match v with | vPtr x => x | _ => vInvalid)
    | tStruct _ flds =>
      deriveFieldsF fuel flds (match v with
        | vStruct xs => if allZero xs then [] else xs
        | _ => []) []
    | t => .panicked ("getFieldConfig expected a struct type, but got " ++ t.str)

/-- The field loop of `getFieldConfig`; `vals` is empty when the struct value
is zero (then no field value is valid, so no defaults are recorded). -/
def deriveFieldsF : Nat → List (SField GoType) → List GoValue →
    List (String × FieldConfig) → Outcome (List (String × FieldConfig))
  | 0, _, _, _ => .panicked "model: fuel exhausted (unreachable)"
  | _ + 1, [], _, acc => .ok acc
  | fuel + 1, ⟨fn, tm, fmt, rq, an, ty⟩ :: rest, vals, acc =>
    let fv := vals.headD vInvalid
    let vrest := vals.tail
    let tyd := derefPtr ty
    if fn ≠ "" ∧ ¬ isExportedName fn then deriveFieldsF fuel rest vrest acc
    else if tm.getD "" = "-" then deriveFieldsF fuel rest vrest acc
    else if tyd.kind = .kFunc ∨ tyd.kind = .kIface then
      deriveFieldsF fuel rest vrest acc
    else if tyd.kind = .kStruct ∧ ¬ isInternalStructFieldType ty then
      -- nested / embedded struct
      let t' := subTypeT ty
      match getFieldConfigF fuel (tPtr t') (vPtr (zeroValue t')) with
      | .ok sub =>
        if an then
          -- embedded: merge the sub-fields into the current level
          deriveFieldsF fuel rest vrest
            (sub.foldl (fun a e => insertKV e.1 e.2 a) acc)
        else
          deriveFieldsF fuel rest vrest (insertKV fn
            (FieldConfig.mk .fObject none "" false (getFieldType t') sub) acc)
      | .err e => .err e
      | .panicked e => .panicked e
    else
      match getFieldTypeFromStructField fn ty with
      | .ok fty =>
        -- the config.Duration / config.Size re-assignments of the default
        -- in the source are identity operations and need no model
        let deflt :=
          match fv with
          | vInvalid => none
          | fv => if isZeroVal fv then none else some fv
        if hasSubType ty then
          let t' := subTypeT ty
          let st := getFieldType t'
          if t'.kind = .kStruct then
            match getFieldConfigF fuel (tPtr t') (vPtr (zeroValue t')) with
            | .ok sub =>
              deriveFieldsF fuel rest vrest (insertKV fn
                (FieldConfig.mk fty deflt fmt (rq = "true") st sub) acc)
            | .err e => .err e
            | .panicked e => .panicked e
          else
            deriveFieldsF fuel rest vrest (insertKV fn
              (FieldConfig.mk fty deflt fmt (rq = "true") st []) acc)
        else
          deriveFieldsF fuel rest vrest (insertKV fn
            (FieldConfig.mk fty deflt fmt (rq = "true") .unknown []) acc)
      | .err e => .err e
      | .panicked e => .panicked e

end

/-- `getFieldConfig` with ample fuel: the recursion depth is bounded by the
size of the traversed type. -/
def getFieldConfig (t : GoType) (v : GoValue) :
    Outcome (List (String × FieldConfig)) :=
  getFieldConfigF (tySize t + 1) t v

/-- The field loop of `getFieldConfig` with ample fuel. -/
def deriveFields (flds : List (SField GoType)) (vals : List GoValue)
    (acc : List (String × FieldConfig)) :
    Outcome (List (String × FieldConfig)) :=
  deriveFieldsF (fldsSize flds + 1) flds vals acc

/-! ### Value extraction (`getFieldConfigValuesFromStruct` and friends) -/

/-- The kind switch of `setMapKey` after re-reflecting the extracted
interface value.  The `Ptr` branch of the source re-runs the whole
extraction on the pointee; in this model interface contents are already
extracted, so we unwrap the pointer directly (identical for the unnamed
pointee types that can appear there). -/
def storeVal (obj : List (String × GoValue)) (key : String) (r : GoValue) :
    Outcome (List (String × GoValue)) :=
  match r with
  | vIface _ x => storeVal obj key x
  | vBool b => .ok (insertKV key (vBool b) obj)
  | vInt _ n => .ok (insertKV key (vInt .iw64 n) obj)
  | vUint _ n => .ok (insertKV key (vUint .uw64 n) obj)
  | vFloat x => .ok (insertKV key (vFloat x) obj)
  | vString s => .ok (insertKV key (vString s) obj)
  | vMap m => .ok (insertKV key (vMap m) obj)
  | vSlice s => .ok (insertKV key (vSlice s) obj)
  | vStruct s => .ok (insertKV key (vStruct s) obj)
  | vPtr x => storeVal obj key x
  | vPtrNil => .panicked "reflect: call of reflect.Value.Type on zero Value"
  | vIfaceNil => .panicked "reflect: call of reflect.Value.Type on zero Value"
  | vInvalid => .panicked "reflect: call of reflect.Value.Type on zero Value"
  | vOpaque => .panicked ("unhandled type func() for field " ++ key)

theorem sizeOf_headD_le (xs : List GoValue) :
    sizeOf (xs.headD vInvalid) ≤ sizeOf xs := by
  cases xs <;> simp [List.headD] <;> omega

theorem sizeOf_listTail_le (xs : List GoValue) :
    sizeOf xs.tail ≤ sizeOf xs := by
  cases xs <;> simp [List.tail] <;> omega

theorem sizeOf_elemT_le (t : GoType) : sizeOf t.elemT ≤ sizeOf t := by
  cases t <;> simp [GoType.elemT] <;> omega

theorem sizeOf_ptrElem_le (fv : GoValue) :
    sizeOf (match fv with | vPtr x => x | _ => vInvalid) ≤ sizeOf fv := by
  cases fv <;> simp <;> omega

mutual

/-- `getFieldConfigValuesFromStruct(p, cfg)`: turn a live struct into an
untyped snapshot.  An entirely zero value produces nothing at all.
Throughout this family the fuel decreases on every recursive call while
the combined syntactic size of the traversed type and value strictly
decreases, so the fuel supplied by the wrappers is never exhausted. -/
def extractStructF : Nat → GoType → GoValue →
    Outcome (List (String × GoValue))
  | 0, _, _ => .panicked "model: fuel exhausted (unreachable)"
  | fuel + 1, t, v =>
    if isZeroVal v then .ok []
    else extractStructGoF fuel t v

/-- The pointer-stripping and field loop of `getFieldConfigValuesFromStruct`
(after the `IsZero` early return). -/
def extractStructGoF : Nat → GoType → GoValue →
    Outcome (List (String × GoValue))
  | 0, _, _ => .panicked "model: fuel exhausted (unreachable)"
  | fuel + 1, t, v =>
    match t, v with
    | tPtr e, vPtr x => extractStructGoF fuel e x
    | tPtr e, x => extractStructGoF fuel e x
    | tStruct _ flds, vStruct xs => extractFieldsF fuel flds xs []
    | t, _ =>
      .panicked ("getFieldConfigValues expected a struct type, but got " ++
        t.str)

/-- The per-field loop: skip unexported fields and the `Log` field,
dereference pointer-typed fields, then store under the resolved name. -/
def extractFieldsF : Nat → List (SField GoType) → List GoValue →
    List (String × GoValue) → Outcome (List (String × GoValue))
  | 0, _, _, _ => .panicked "model: fuel exhausted (unreachable)"
  | _ + 1, [], _, acc => .ok acc
  | fuel + 1, ⟨fn, tm, _, _, _, ty⟩ :: rest, xs, acc =>
    let fv := xs.headD vInvalid
    let xrest := xs.tail
    if ¬ isExportedName fn then extractFieldsF fuel rest xrest acc
    else if fn = "Log" then extractFieldsF fuel rest xrest acc
    else
      let pv := if ty.kind = .kPtr then
          (ty.elemT, match fv with | vPtr x => x | _ => vInvalid)
        else (ty, fv)
      match toSnakeCase fn tm with
      | (name, true) =>
        match setMapKeyMF fuel acc name pv.1 pv.2 with
        | .ok acc2 => extractFieldsF fuel rest xrest acc2
        | .err e => .err e
        | .panicked e => .panicked e
      | (_, false) => extractFieldsF fuel rest xrest acc

/-- `setMapKey(obj, key, v)`: extract the value, then store it by kind. -/
def setMapKeyMF : Nat → List (String × GoValue) → String → GoType →
    GoValue → Outcome (List (String × GoValue))
  | 0, _, _, _, _ => .panicked "model: fuel exhausted (unreachable)"
  | fuel + 1, obj, key, t, v =>
    match extractValueF fuel t v with
    | .ok r => storeVal obj key r
    | .err e => .err e
    | .panicked e => .panicked e

/-- `getFieldConfigValuesFromValue(val)`: render one live value to its
untyped form; `config.Duration` / `time.Duration` / `config.Size` int64s
are rendered to their canonical text. -/
def extractValueF : Nat → GoType → GoValue → Outcome GoValue
  | 0, _, _ => .panicked "model: fuel exhausted (unreachable)"
  | fuel + 1, t, v =>
    match v with
    | vInvalid => .panicked "reflect: call of reflect.Value.Type on zero Value"
    | v =>
      match t, v with
      | tPtr e, vPtr x => extractValueF fuel e x
      | tPtr _, vPtrNil =>
        .panicked "reflect: call of reflect.Value.Type on zero Value"
      | t, v =>
        match t, v with
        | tSlice et, vSlice xs => (extractSliceF fuel et xs).map vSlice
        | tMap et, vMap m => (extractMapF fuel et m []).map vMap
        | tStruct sn sf, v => (extractStructF fuel (tStruct sn sf) v).map vMap
        | tBool, v => .ok v
        | tString, v => .ok v
        | tInt _, vInt _ n => .ok (vInt .iw64 n)
        | tDuration, vInt _ n => .ok (vString (durationString n))
        | tSize, vInt _ n => .ok (vString (sizeText n))
        | tUint _, vUint _ n => .ok (vUint .uw64 n)
        | tFloat32, v => .ok v
        | tFloat64, v => .ok v
        | tNumber, v => .ok v
        | tIface, vIface _ x => .ok x
        | tIface, vIfaceNil => .ok vIfaceNil
        | tFunc, _ => .ok vOpaque
        | tChan, _ => .ok vOpaque
        | _, v => .ok v

/-- Element loop of `getFieldConfigValuesFromSlice`. -/
def extractSliceF : Nat → GoType → List GoValue → Outcome (List GoValue)
  | 0, _, _ => .panicked "model: fuel exhausted (unreachable)"
  | _ + 1, _, [] => .ok []
  | fuel + 1, et, x :: rest =>
    match extractValueF fuel et x with
    | .ok r =>
      match extractSliceF fuel et rest with
      | .ok rs => .ok (r :: rs)
      | e => e
    | .err e => .err e
    | .panicked e => .panicked e

/-- Entry loop of `getFieldConfigValuesFromMap`: each value goes through
`setMapKey`. -/
def extractMapF : Nat → GoType → List (String × GoValue) →
    List (String × GoValue) → Outcome (List (String × GoValue))
  | 0, _, _, _ => .panicked "model: fuel exhausted (unreachable)"
  | _ + 1, _, [], acc => .ok acc
  | fuel + 1, et, (k, x) :: rest, acc =>
    match setMapKeyMF fuel acc k et x with
    | .ok acc2 => extractMapF fuel et rest acc2
    | .err e => .err e
    | .panicked e => .panicked e

end

/-- `getFieldConfigValuesFromStruct` with ample fuel: the recursion depth is
bounded by the combined size of the type and the value. -/
def extractStruct (t : GoType) (v : GoValue) :
    Outcome (List (String × GoValue)) :=
  extractStructF (4 * (tySize t + valSize v) + 4) t v

/-- `getFieldConfigValuesFromValue` with ample fuel. -/
def extractValue (t : GoType) (v : GoValue) : Outcome GoValue :=
  extractValueF (4 * (tySize t + valSize v) + 4) t v

/-! ### Lifecycle model (`DeletePlugin`, `GetPluginStatus`, `UpdatePlugin`,
`CreatePlugin`) -/

/-- `models.PluginState`. -/
inductive PluginState where
  | starting
  | running
  | stopping
  | dead
  deriving DecidableEq, Repr

/-- One running instance, reduced to what the lifecycle operations inspect:
its numeric ID and its lifecycle state. -/
structure Instance where
  iid : Nat
  istate : PluginState
  deriving DecidableEq, Repr

/-- The agent's three running-instance lists (aggregators are registered via
`AddProcessor` and live in the processor list). -/
structure AgentSt where
  ins : List Instance
  procs : List Instance
  outs : List Instance
  deriving DecidableEq, Repr

/-- `idToString`: `fmt.Sprintf("%016x", id)`. -/
def idToString (id : Nat) : String :=
  let hex := (Nat.toDigits 16 id)
  String.mk (List.replicate (16 - hex.length) '0' ++ hex)

/-- Observable side effects of the lifecycle operations. -/
inductive Ev where
  | hookFired (hook : Nat) (cfgID : String)
  | stopInput (id : Nat)
  | stopProcessor (id : Nat)
  | stopOutput (id : Nat)
  | createCalled (forcedID : Nat)
  deriving DecidableEq, Repr

/-- Errors of the lifecycle operations. -/
inductive ApiErr where
  | notFound (msg : String)
  | badRequest (msg : String)
  | timeout (msg : String)
  deriving DecidableEq, Repr

/-- `DeletePlugin(id)`: fire every registered remove hook (in registration
order, each exactly once, with the id string), then stop the first matching
instance, scanning inputs, then processors, then outputs; `ErrNotFound` when
no list contains the id. -/
def deletePlugin (removeHooks : List Nat) (ag : AgentSt) (id : Nat) :
    List Ev × Option ApiErr :=
  let hookEvs := removeHooks.map (fun h => Ev.hookFired h (idToString id))
  match ag.ins.find? (fun v => v.iid == id) with
  | some v => (hookEvs ++ [Ev.stopInput v.iid], none)
  | none =>
    match ag.procs.find? (fun v => v.iid == id) with
    | some v => (hookEvs ++ [Ev.stopProcessor v.iid], none)
    | none =>
      match ag.outs.find? (fun v => v.iid == id) with
      | some v => (hookEvs ++ [Ev.stopOutput v.iid], none)
      | none => (hookEvs, some (ApiErr.notFound "not found"))

/-- `GetPluginStatus(id)`: the state of the first matching instance; `Dead`
when the id is nowhere to be found. -/
def getPluginStatus (ag : AgentSt) (id : Nat) : PluginState :=
  match ag.ins.find? (fun v => v.iid == id) with
  | some v => v.istate
  | none =>
    match ag.procs.find? (fun v => v.iid == id) with
    | some v => v.istate
    | none =>
      match ag.outs.find? (fun v => v.iid == id) with
      | some v => v.istate
      | none => .dead

/-- The polling loop of `UpdatePlugin`: check the status, then either the
30-second context expires (`fuel` exhausted, the `ctx.Done()` arm) or sleep
100ms and poll again.  `ags k` is the agent's state at the k-th poll. -/
def waitDead (ags : Nat → AgentSt) (id : Nat) : Nat → Nat → Bool
  | k, fuel =>
    if getPluginStatus (ags k) id = .dead then true
    else
      match fuel with
      | 0 => false
      | fuel' + 1 => waitDead ags id (k + 1) fuel'

/-- `UpdatePlugin(id, cfg)`: delete, wait (bounded) for `Dead`, then recreate
under the same forced ID.  The recreation itself is outside this model's
scope and is recorded as a `createCalled` event. -/
def updatePlugin (removeHooks : List Nat) (ags : Nat → AgentSt) (id : Nat)
    (fuel : Nat) : List Ev × Option ApiErr :=
  let dres := deletePlugin removeHooks (ags 0) id
  match dres.2 with
  | some e => (dres.1, some e)
  | none =>
    if waitDead ags id 0 fuel then
      (dres.1 ++ [Ev.createCalled id], none)
    else
      (dres.1, some (ApiErr.timeout "timed out shutting down plugin for update"))

/-- The registries of plugin constructors, by category. -/
structure Registries where
  regIns : List String
  regOuts : List String
  regProcs : List String
  regAggs : List String
  deriving DecidableEq, Repr

/-- `strings.Split(name, ".")`: dot-separated segments; the empty string
splits into `[""]`, exactly as in Go. -/
def splitOnDot (s : String) : List String :=
  go s.toList []
where
  go : List Char → List Char → List String
    | [], cur => [String.mk cur.reverse]
    | '.' :: rest, cur => String.mk cur.reverse :: go rest []
    | c :: rest, cur => go rest (c :: cur)

/-- The name-resolution prefix of `CreatePlugin`: split the requested name
on `"."` and index `parts[0]` and `parts[1]` unconditionally, then look the
name up in the category's registry.  Construction after a successful lookup
is outside this claim's scope and is abstracted to `ok`. -/
def createPluginName (reg : Registries) (name : String) : Outcome Unit :=
  let parts := splitOnDot name
  match parts with
  | pluginType :: nm :: _ =>
    match pluginType with
    | "inputs" =>
      if reg.regIns.contains nm then .ok ()
      else .err ("not found: finding plugin with name " ++ nm)
    | "outputs" =>
      if reg.regOuts.contains nm then .ok ()
      else .err ("not found: Error finding plugin with name " ++ nm)
    | "aggregators" =>
      if reg.regAggs.contains nm then .ok ()
      else .err ("not found: Error finding aggregator plugin with name " ++ nm)
    | "processors" =>
      if reg.regProcs.contains nm then .ok ()
      else .err ("not found: Error finding processor plugin with name " ++ nm)
    | _ => .err "not found: Unknown plugin type"
  | _ => .panicked "runtime error: index out of range [1] with length 1"

/-! ### Example types and instances used by the claim theorems -/

def durationFieldT : GoType :=
  tStruct "stress.Config" [⟨"Timeout", none, "", "", false, tDuration⟩]

def percpuT : GoType :=
  tStruct "cpu.CPUStats" [⟨"Percpu", none, "", "", false, tBool⟩]

def twoIntT : GoType :=
  tStruct "mem.Config"
    [⟨"Alpha", none, "", "", false, tInt .iw64⟩,
     ⟨"Beta", none, "", "", false, tInt .iw64⟩]

def taggedUnexportedT : GoType :=
  tStruct "amqp.Config" [⟨"password", some "pwd", "", "", false, tString⟩]

def sentinelT : GoType :=
  tStruct "swap.Config" [⟨"Password", some "-", "", "", false, tString⟩]

def chanFieldT : GoType :=
  tStruct "exec.Config" [⟨"Events", none, "", "", false, tChan⟩]

/-- A representative flat plugin struct covering the scalar field types the
round-trip claim ranges over: bool, integer, size, string, duration; the
snake-case external names are already in sorted order. -/
def demoT : GoType :=
  tStruct "demo.Config"
    [⟨"Enabled", none, "", "", false, tBool⟩,
     ⟨"MaxLines", none, "", "", false, tInt .iw64⟩,
     ⟨"MaxSize", none, "", "", false, tSize⟩,
     ⟨"Name", none, "", "", false, tString⟩,
     ⟨"Timeout", none, "", "", false, tDuration⟩]

/-- A field-value set for `demoT`, keyed by the convention-derived external
(snake-case) names, every value non-zero. -/
def demoCfg : List (String × GoValue) :=
  [("enabled", vBool true), ("max_lines", vInt .iw64 100),
   ("max_size", vString "64MB"), ("name", vString "cpu"),
   ("timeout", vString "1h30m")]

def cpuOnlyRegistry : Registries := ⟨["cpu"], [], [], []⟩

def oneRunningInput : AgentSt := ⟨[⟨7, .running⟩], [], []⟩

/-- Canonicalisation of one request value at a given destination type:
duration- and size-typed text is replaced by its canonical rendering, all
other values unchanged (the claim's notion of canonicalising the original
set before comparing it with the extracted one). -/
def canonV : GoType → GoValue → GoValue
  | tDuration, vString s =>
    vString (durationString (match parseDuration s with | .ok d => d | _ => 0))
  | tSize, vString s =>
    vString (sizeText (match parseSize s with | .ok n => n | _ => 0))
  | _, v => v

/-! ### C3 -/

/-- C3 (code bug): the claim says numeric kinds widen freely — any integer
width into any integer width, and integers into floats — without error.  The
same-kind and signed-integer cases do work, but an int source into a float
destination panics (`from.Float()` is called on an int-kind value), and a
uint source into a signed-int or float destination panics
(`to.SetUint` on a non-uint destination), contradicting the claim. -/
theorem int_to_float_widening_panics :
    setObject (vInt .iw64 5) tFloat64 (vFloat 0)
      = .panicked "reflect: call of reflect.Value.Float on int64 Value" ∧
    setObject (vUint .uw64 5) (tInt .iw64) (vInt .iw64 0)
      = .panicked "reflect: call of reflect.Value.SetUint on int64 Value" ∧
    setObject (vUint .uw64 5) tFloat64 (vFloat 0)
      = .panicked "reflect: call of reflect.Value.SetUint on float64 Value" ∧
    setObject (vInt .iw8 5) (tInt .iw64) (vInt .iw64 0) = .ok (vInt .iw64 5) ∧
    setObject (vInt .iw64 5) (tUint .uw32) (vUint .uw32 0) = .ok (vUint .uw32 5) ∧
    setObject (vUint .uw8 5) (tUint .uw64) (vUint .uw64 0) = .ok (vUint .uw64 5) ∧
    setObject (vBool true) tBool (vBool false) = .ok (vBool true) ∧
    setObject (vString "x") tString (vString "") = .ok (vString "x") ∧
    setObject (vFloat 3) tFloat64 (vFloat 0) = .ok (vFloat 3) :=
  ⟨rfl, rfl, rfl, rfl, rfl, rfl, rfl, rfl, rfl⟩

/-! ### C4 -/

/-- C4: binding `{"timeout": "1h30m"}` onto a duration-typed field stores
ninety minutes (5400000000000 ns); binding `"not-a-duration"` is a bind
error; and in general every string source bound to a duration-typed slot is
the result of `time.ParseDuration`, with parse failure wrapped as a bind
error. -/
theorem duration_parse_binding :
    setFieldConfig [("timeout", vString "1h30m")] (tPtr durationFieldT)
      (vPtr (zeroValue durationFieldT))
      = .ok (vPtr (vStruct [vInt .iw64 5400000000000])) ∧
    (setFieldConfig [("timeout", vString "not-a-duration")] (tPtr durationFieldT)
      (vPtr (zeroValue durationFieldT))).isErr = true ∧
    (∀ (s : String) (cur : GoValue),
      setObject (vString s) tDuration cur =
        match parseDuration s with
        | .ok d => .ok (vInt .iw64 d)
        | .err e => .err ("Couldn't parse duration " ++ quoteStr s ++ ": " ++ e)
        | .panicked e => .panicked e) := by
  refine ⟨rfl, rfl, ?_⟩
  intro s cur
  show setObjectF (valSize (vString s) + 1) (vString s) tDuration cur = _
  simp only [valSize, setObjectF]
  cases parseDuration s <;> rfl

/-! ### C5 -/

/-- C5 (counterexample): the claim says a field whose current value is zero
is omitted from the snapshot; but extracting a non-zero struct with a zero
`Alpha` field still emits `alpha` (the `IsZero` check in the source applies
to the whole struct value only, never per field). -/
theorem zero_field_not_skipped :
    extractStruct twoIntT (vStruct [vInt .iw64 0, vInt .iw64 5])
      = .ok [("alpha", vInt .iw64 0), ("beta", vInt .iw64 5)] ∧
    ([("alpha", vInt .iw64 0), ("beta", vInt .iw64 5)].lookup "alpha").isSome
      = true :=
  ⟨rfl, rfl⟩

/-- C5 (amended): the zero-value skip applies only to the struct value as a
whole — a zero top-level value extracts to the empty mapping — while an
individual zero field of a non-zero struct is still emitted. -/
theorem zero_skip_whole_struct_only :
    (∀ (t : GoType) (v : GoValue), isZeroVal v = true →
        extractStruct t v = .ok []) ∧
    extractStruct twoIntT (vStruct [vInt .iw64 0, vInt .iw64 7])
      = .ok [("alpha", vInt .iw64 0), ("beta", vInt .iw64 7)] := by
  constructor
  · intro t v h
    show extractStructF (4 * (tySize t + valSize v) + 4) t v = _
    rw [show 4 * (tySize t + valSize v) + 4
        = (4 * (tySize t + valSize v) + 3) + 1 from rfl]
    simp only [extractStructF, h]
    rfl
  · rfl

/-- C5 amended witness: the whole-struct zero skip at a concrete input. -/
theorem zero_skip_whole_struct_only_witness :
    extractStruct twoIntT (vStruct [vInt .iw64 0, vInt .iw64 0]) = .ok [] :=
  zero_skip_whole_struct_only.1 twoIntT (vStruct [vInt .iw64 0, vInt .iw64 0]) rfl

/-! ### C9 -/

/-- C9: a request entry whose name resolves to no field is skipped silently
(the loop just moves on, producing no error), while an entry that resolves
to an existing but unsettable slot aborts the bind with an error naming that
entry. -/
theorem resolver_skip_and_unsettable :
    (∀ (fuel : Nat) (k : String) (x : GoValue)
       (rest : List (String × GoValue)) (t : GoType) (v : GoValue),
      getFieldByName t k = none →
      setFieldsF (fuel + 1) ((k, x) :: rest) t v = setFieldsF fuel rest t v) ∧
    (∀ (k : String) (x : GoValue) (t : GoType) (v : GoValue)
       (path : List Nat) (ft : GoType),
      getFieldByName t k = some (path, ft, false) →
      setFields [(k, x)] t v
        = .err ("cannot set " ++ k ++ " (" ++ ft.goName ++ ")")) := by
  constructor
  · intro fuel k x rest t v h
    simp only [setFieldsF, h]
  · intro k x t v path ft h
    show setFieldsF (kvsSize [(k, x)] + 1) [(k, x)] t v = _
    simp only [kvsSize, setFieldsF, h]
    rfl

/-- C9 witness: an unexported field reachable through its `toml` tag exists
but cannot be set; binding it errors naming the entry; a name matching
nothing is skipped without error. -/
theorem resolver_skip_and_unsettable_witness :
    setFields [("pwd", vString "x")] taggedUnexportedT
      (zeroValue taggedUnexportedT) = .err "cannot set pwd (string)" ∧
    setFieldsF 1 [("nope", vString "x")] taggedUnexportedT
      (zeroValue taggedUnexportedT)
      = setFieldsF 0 [] taggedUnexportedT (zeroValue taggedUnexportedT) := by
  constructor
  · exact resolver_skip_and_unsettable.2 "pwd" (vString "x") taggedUnexportedT
      (zeroValue taggedUnexportedT) [0] tString rfl
  · exact resolver_skip_and_unsettable.1 0 "nope" (vString "x") []
      taggedUnexportedT (zeroValue taggedUnexportedT) rfl

/-! ### C10 -/

/-- C10: `CreatePlugin` indexes `parts[1]` of the dot-split name
unconditionally, so any type name without a `"."` (for example `"cpu"` or
the empty string) panics with an index-out-of-range runtime error instead of
returning NotFound; the NotFound outcome is reached only by names of the
form `category.name`. -/
theorem create_plugin_name_parsing :
    (∀ reg : Registries, createPluginName reg "cpu"
        = .panicked "runtime error: index out of range [1] with length 1") ∧
    (∀ reg : Registries, createPluginName reg ""
        = .panicked "runtime error: index out of range [1] with length 1") ∧
    (∀ reg : Registries, createPluginName reg "bogus.nothing"
        = .err "not found: Unknown plugin type") ∧
    createPluginName cpuOnlyRegistry "inputs.cpu" = .ok () ∧
    createPluginName cpuOnlyRegistry "inputs.bogus"
      = .err "not found: finding plugin with name bogus" :=
  ⟨fun _ => rfl, fun _ => rfl, fun _ => rfl, rfl, rfl⟩

/-! ### C2 -/

/-- C2 (counterexample): the claim describes the convention as inserting an
underscore only before an upper-case run that follows a lower-case letter or
digit, which would map `HTTPServer` to `httpserver`; the code's first regex
pass also splits inside an upper-case run before a trailing lower-case run,
giving `http_server`.  Moreover the sentinel `"-"` does not remove the field
from binding entirely: a request entry literally named `"-"` still matches
the excluded field through the tag-equality check and writes it. -/
theorem naming_convention_counterexample :
    snakeDerived "HTTPServer" = "http_server" ∧
    specSnakeName "HTTPServer" = "httpserver" ∧
    snakeDerived "HTTPServer" ≠ specSnakeName "HTTPServer" ∧
    setFieldConfig [("-", vString "x")] (tPtr sentinelT)
      (vPtr (zeroValue sentinelT)) = .ok (vPtr (vStruct [vString "x"])) := by
  refine ⟨rfl, rfl, ?_, rfl⟩
  decide

/-- C2 (amended): an explicit `toml` override always wins; the sentinel
`"-"` removes the field from schema derivation and from convention-name
resolution (though a literal `"-"` request key still matches, as the
counterexample shows); otherwise the name is derived by the two regex
passes — split before an upper-case letter followed by a lower-case run,
then split between a lower-case letter or digit and an upper-case letter —
and lower-cased, so `MetricBatchSize` maps to `metric_batch_size`. -/
theorem naming_override_and_two_pass :
    (∀ (fn t : String), t ≠ "-" → toSnakeCase fn (some t) = (t, true)) ∧
    (∀ fn : String, toSnakeCase fn (some "-") = ("", false)) ∧
    (∀ fn : String, toSnakeCase fn none = (snakeDerived fn, true)) ∧
    snakeDerived "MetricBatchSize" = "metric_batch_size" ∧
    (∀ (fuel : Nat) (fn fmt rq : String) (an : Bool) (ty : GoType)
       (rest : List (SField GoType)) (vals : List GoValue)
       (acc : List (String × FieldConfig)),
      deriveFieldsF (fuel + 1) (⟨fn, some "-", fmt, rq, an, ty⟩ :: rest) vals acc
        = deriveFieldsF fuel rest vals.tail acc) ∧
    (∀ (fuel : Nat) (fn fmt rq : String) (ty : GoType)
       (rest : List (SField GoType)) (nm : String) (idx : Nat),
      nm ≠ "-" →
      findFieldF (fuel + 1) (⟨fn, some "-", fmt, rq, false, ty⟩ :: rest) nm idx
        = findFieldF fuel rest nm (idx + 1)) := by
  refine ⟨?_, ?_, fun _ => rfl, by decide, ?_, ?_⟩
  · intro fn t ht
    simp [toSnakeCase, ht]
  · intro fn
    simp [toSnakeCase]
  · intro fuel fn fmt rq an ty rest vals acc
    simp only [deriveFieldsF]
    by_cases h1 : fn ≠ "" ∧ ¬ isExportedName fn = true
    · rw [if_pos h1]
    · rw [if_neg h1, if_pos]
      simp [Option.getD]
  · intro fuel fn fmt rq ty rest nm idx hnm
    simp only [findFieldF]
    rw [if_neg (by simp)]
    simp only [Option.getD]
    rw [if_neg (by exact fun h => hnm h.symm)]
    have hsn : toSnakeCase fn (some "-") = ("", false) := by simp [toSnakeCase]
    rw [hsn]
    simp

/-- C2 witness: the override wins at a concrete tag, and a convention-name
lookup skips a concrete sentinel field. -/
theorem naming_override_and_two_pass_witness :
    toSnakeCase "BatchSize" (some "batchsize") = ("batchsize", true) ∧
    findFieldF 1 [⟨"Password", some "-", "", "", false, tString⟩] "password" 0
      = none := by
  constructor
  · exact naming_override_and_two_pass.1 "BatchSize" "batchsize" (by decide)
  · have h := naming_override_and_two_pass.2.2.2.2.2 0 "Password" "" ""
      tString [] "password" 0 (by decide)
    rw [h]
    rfl

/-! ### C7 -/

theorem waitDead_never (ags : Nat → AgentSt) (id : Nat) :
    ∀ (fuel k0 : Nat),
      (∀ j, j ≤ fuel → getPluginStatus (ags (k0 + j)) id ≠ .dead) →
      waitDead ags id k0 fuel = false := by
  intro fuel
  induction fuel with
  | zero =>
    intro k0 h
    have h0 := h 0 (Nat.le_refl 0)
    rw [Nat.add_zero] at h0
    unfold waitDead
    rw [if_neg h0]
  | succ n ih =>
    intro k0 h
    have h0 := h 0 (Nat.zero_le _)
    rw [Nat.add_zero] at h0
    unfold waitDead
    rw [if_neg h0]
    apply ih
    intro j hj
    have hx := h (j + 1) (by omega)
    rwa [show k0 + (j + 1) = k0 + 1 + j from by omega] at hx

theorem no_create_in_delete (hooks : List Nat) (ag : AgentSt) (id : Nat)
    (fid : Nat) : Ev.createCalled fid ∉ (deletePlugin hooks ag id).1 := by
  unfold deletePlugin
  cases ag.ins.find? (fun v => v.iid == id) <;>
    cases ag.procs.find? (fun v => v.iid == id) <;>
      cases ag.outs.find? (fun v => v.iid == id) <;>
        simp [List.mem_append, List.mem_map]

/-- C7: if the deleted instance's status never reaches `Dead` within the
polling budget, `UpdatePlugin` returns the distinct timeout error and never
reaches the re-creation step, so the original ID is not reassigned to any
replacement instance. -/
theorem update_timeout_no_recreate (hooks : List Nat) (ags : Nat → AgentSt)
    (id fuel : Nat)
    (hdel : (deletePlugin hooks (ags 0) id).2 = none)
    (hnever : ∀ j, j ≤ fuel → getPluginStatus (ags j) id ≠ .dead) :
    updatePlugin hooks ags id fuel
      = ((deletePlugin hooks (ags 0) id).1,
          some (ApiErr.timeout "timed out shutting down plugin for update")) ∧
    ∀ fid, Ev.createCalled fid ∉ (updatePlugin hooks ags id fuel).1 := by
  have hw : waitDead ags id 0 fuel = false := by
    apply waitDead_never
    intro j hj
    rw [Nat.zero_add]
    exact hnever j hj
  have hmain : updatePlugin hooks ags id fuel
      = ((deletePlugin hooks (ags 0) id).1,
          some (ApiErr.timeout "timed out shutting down plugin for update")) := by
    simp [updatePlugin, hdel, hw]
  refine ⟨hmain, ?_⟩
  intro fid
  rw [hmain]
  exact no_create_in_delete hooks (ags 0) id fid

/-- C7 witness: a single running input that never dies makes a concrete
update time out without re-creating anything. -/
theorem update_timeout_no_recreate_witness :
    updatePlugin [0] (fun _ => oneRunningInput) 7 3
      = ([Ev.hookFired 0 (idToString 7), Ev.stopInput 7],
          some (ApiErr.timeout "timed out shutting down plugin for update")) := by
  have h := update_timeout_no_recreate [0] (fun _ => oneRunningInput) 7 3 rfl
    (by intro j hj h; exact PluginState.noConfusion h)
  rw [h.1]
  rfl

/-! ### C8 -/

/-- The claim-side description of `DeletePlugin`'s stop action: the single
stop event for the first instance matching the id across the concatenation
of the three categories (inputs, then processors, then outputs), or nothing
when no instance matches. -/
def stopSpec (ag : AgentSt) (id : Nat) : List Ev :=
  match (ag.ins.map (fun v => (v, Ev.stopInput v.iid)) ++
      ag.procs.map (fun v => (v, Ev.stopProcessor v.iid)) ++
      ag.outs.map (fun v => (v, Ev.stopOutput v.iid))).find?
      (fun p => p.1.iid == id) with
  | some p => [p.2]
  | none => []

/-- C8: `DeletePlugin` fires every registered remove hook exactly once, in
registration order, before any scanning (so also when nothing matches); the
remaining events are exactly one stop request for the first matching
instance across the three categories; and the result is NotFound if and
only if no category contains the id. -/
theorem delete_hook_first_scan (hooks : List Nat) (ag : AgentSt) (id : Nat) :
    ((deletePlugin hooks ag id).1).take hooks.length
      = hooks.map (fun h => Ev.hookFired h (idToString id)) ∧
    ((deletePlugin hooks ag id).1).drop hooks.length = stopSpec ag id ∧
    ((deletePlugin hooks ag id).2 = some (ApiErr.notFound "not found") ↔
      (∀ v ∈ ag.ins, v.iid ≠ id) ∧ (∀ v ∈ ag.procs, v.iid ≠ id) ∧
        (∀ v ∈ ag.outs, v.iid ≠ id)) := by
  have htake : ∀ X : List Ev,
      ((hooks.map (fun h => Ev.hookFired h (idToString id))) ++ X).take
        hooks.length = hooks.map (fun h => Ev.hookFired h (idToString id)) :=
    fun X => List.take_left' (by simp)
  have hdrop : ∀ X : List Ev,
      ((hooks.map (fun h => Ev.hookFired h (idToString id))) ++ X).drop
        hooks.length = X :=
    fun X => List.drop_left' (by simp)
  have hcomp : ∀ (ev : Instance → Ev) (l : List Instance),
      List.find? ((fun p : Instance × Ev => p.1.iid == id) ∘ fun v => (v, ev v)) l
        = l.find? (fun v => v.iid == id) := fun _ _ => rfl
  unfold deletePlugin stopSpec
  cases hins : ag.ins.find? (fun v => v.iid == id) with
  | some v =>
    have hv := List.find?_some hins
    have hmem := List.mem_of_find?_eq_some hins
    refine ⟨htake _, ?_, ?_⟩
    · rw [hdrop]
      simp [List.find?_append, List.find?_map, hcomp, hins]
    · exact iff_of_false (by simp)
        (fun hc => hc.1 v hmem (by simpa using hv))
  | none =>
    cases hprocs : ag.procs.find? (fun v => v.iid == id) with
    | some v =>
      have hv := List.find?_some hprocs
      have hmem := List.mem_of_find?_eq_some hprocs
      refine ⟨htake _, ?_, ?_⟩
      · rw [hdrop]
        simp [List.find?_append, List.find?_map, hcomp, hins, hprocs]
      · exact iff_of_false (by simp)
          (fun hc => hc.2.1 v hmem (by simpa using hv))
    | none =>
      cases houts : ag.outs.find? (fun v => v.iid == id) with
      | some v =>
        have hv := List.find?_some houts
        have hmem := List.mem_of_find?_eq_some houts
        refine ⟨htake _, ?_, ?_⟩
        · rw [hdrop]
          simp [List.find?_append, List.find?_map, hcomp, hins, hprocs, houts]
        · exact iff_of_false (by simp)
            (fun hc => hc.2.2 v hmem (by simpa using hv))
      | none =>
        refine ⟨by simpa using htake [], ?_, ?_⟩
        · have h0 := hdrop []
          simp only [List.append_nil] at h0
          rw [h0]
          simp [List.find?_append, List.find?_map, hcomp, hins, hprocs, houts]
        · refine iff_of_true rfl
            ⟨fun v hv => by simpa using List.find?_eq_none.mp hins v hv,
             fun v hv => by simpa using List.find?_eq_none.mp hprocs v hv,
             fun v hv => by simpa using List.find?_eq_none.mp houts v hv⟩

/-! ### C6 -/

mutual

/-- Every type tag in a `FieldConfig`, including recursively in its
sub-fields, is a member of the closed enumeration (is not `unknown`). -/
def fcKnown : FieldConfig → Bool
  | .mk t _ _ _ _ sf => (t != .unknown) && cfgKnown sf

def cfgKnown : List (String × FieldConfig) → Bool
  | [] => true
  | (_, fc) :: rest => fcKnown fc && cfgKnown rest

end

/-- A field the claim says must abort derivation: exported, not excluded by
the sentinel, not of func/interface kind (those are skipped), but with no
field-type mapping. -/
def badField (f : SField GoType) : Bool :=
  isExportedName f.fname && (f.toml.getD "" != "-") &&
    !((derefPtr f.ftype).kind == .kFunc) && !((derefPtr f.ftype).kind == .kIface) &&
    (getFieldType f.ftype == .unknown)

theorem cfgKnown_insertKV (k : String) (fc : FieldConfig)
    (acc : List (String × FieldConfig)) (hfc : fcKnown fc = true)
    (hacc : cfgKnown acc = true) : cfgKnown (insertKV k fc acc) = true := by
  induction acc with
  | nil => simp [insertKV, cfgKnown, hfc]
  | cons e rest ih =>
    obtain ⟨k', fc'⟩ := e
    simp only [cfgKnown, Bool.and_eq_true] at hacc
    simp only [insertKV]
    split
    · simp [cfgKnown, hfc, hacc.2]
    · simp [cfgKnown, hacc.1, ih hacc.2]

theorem cfgKnown_foldl_insert (sub : List (String × FieldConfig)) :
    ∀ acc : List (String × FieldConfig), cfgKnown sub = true →
      cfgKnown acc = true →
      cfgKnown (sub.foldl (fun a e => insertKV e.1 e.2 a) acc) = true := by
  induction sub with
  | nil => intro acc _ hacc; simpa using hacc
  | cons e rest ih =>
    intro acc hsub hacc
    obtain ⟨k, fc⟩ := e
    simp only [cfgKnown, Bool.and_eq_true] at hsub
    simp only [List.foldl]
    exact ih _ hsub.2 (cfgKnown_insertKV _ _ _ hsub.1 hacc)

theorem fieldType_ok_not_unknown {fn : String} {ft : GoType} {fty : FieldType}
    (h : getFieldTypeFromStructField fn ft = .ok fty) :
    (fty != .unknown) = true := by
  unfold getFieldTypeFromStructField at h
  by_cases hu : getFieldType ft = FieldType.unknown
  · rw [if_pos hu] at h; cases h
  · rw [if_neg hu] at h
    cases h
    simpa using hu

theorem getFieldType_struct_kind {ty : GoType}
    (h : (derefPtr ty).kind = .kStruct) : getFieldType ty ≠ .unknown := by
  simp only [getFieldType, h]
  split
  · decide
  · split <;> decide

theorem derivAux (fuel : Nat) :
    (∀ (t : GoType) (v : GoValue) (cfg : List (String × FieldConfig)),
      getFieldConfigF fuel t v = .ok cfg → cfgKnown cfg = true) ∧
    (∀ (flds : List (SField GoType)) (vals : List GoValue)
       (acc res : List (String × FieldConfig)),
      deriveFieldsF fuel flds vals acc = .ok res →
      cfgKnown acc = true → cfgKnown res = true) ∧
    (∀ (flds : List (SField GoType)) (vals : List GoValue)
       (acc res : List (String × FieldConfig)),
      deriveFieldsF fuel flds vals acc = .ok res →
      ∀ f ∈ flds, badField f = false) := by
  induction fuel with
  | zero =>
    refine ⟨?_, ?_, ?_⟩
    · intro t v cfg h; simp [getFieldConfigF] at h
    · intro flds vals acc res h; simp [deriveFieldsF] at h
    · intro flds vals acc res h; simp [deriveFieldsF] at h
  | succ n ih =>
    obtain ⟨ihA, ihB, ihC⟩ := ih
    have hB : ∀ (flds : List (SField GoType)) (vals : List GoValue)
        (acc res : List (String × FieldConfig)),
        deriveFieldsF (n + 1) flds vals acc = .ok res →
        cfgKnown acc = true → cfgKnown res = true := by
      intro flds vals acc res h hacc
      cases flds with
      | nil =>
        simp only [deriveFieldsF] at h
        cases h
        exact hacc
      | cons f rest =>
        obtain ⟨fn, tm, fmt, rq, an, ty⟩ := f
        simp only [deriveFieldsF] at h
        split at h
        · exact ihB _ _ _ _ h hacc
        · split at h
          · exact ihB _ _ _ _ h hacc
          · split at h
            · exact ihB _ _ _ _ h hacc
            · split at h
              · -- struct / embedded branch
                split at h
                · rename_i sub heq
                  split at h
                  · exact ihB _ _ _ _ h
                      (cfgKnown_foldl_insert _ _ (ihA _ _ _ heq) hacc)
                  · exact ihB _ _ _ _ h
                      (cfgKnown_insertKV _ _ _
                        (by simp [fcKnown, ihA _ _ _ heq]) hacc)
                · cases h
                · cases h
              · -- scalar / collection branch
                split at h
                · rename_i fty hfty
                  split at h
                  · split at h
                    · split at h
                      · rename_i sub heq
                        exact ihB _ _ _ _ h
                          (cfgKnown_insertKV _ _ _
                            (by simp [fcKnown, fieldType_ok_not_unknown hfty,
                              ihA _ _ _ heq]) hacc)
                      · cases h
                      · cases h
                    · exact ihB _ _ _ _ h
                        (cfgKnown_insertKV _ _ _
                          (by simp [fcKnown, cfgKnown,
                            fieldType_ok_not_unknown hfty]) hacc)
                  · exact ihB _ _ _ _ h
                      (cfgKnown_insertKV _ _ _
                        (by simp [fcKnown, cfgKnown,
                          fieldType_ok_not_unknown hfty]) hacc)
                · cases h
                · cases h
    refine ⟨?_, hB, ?_⟩
    · intro t v cfg h
      cases t <;> simp only [getFieldConfigF] at h
      case tPtr e => exact ihA _ _ _ h
      case tStruct sn flds => exact ihB _ _ _ _ h rfl
      all_goals cases h
    · intro flds vals acc res h f hf
      cases flds with
      | nil => cases hf
      | cons f0 rest =>
        obtain ⟨fn, tm, fmt, rq, an, ty⟩ := f0
        rcases List.mem_cons.mp hf with hf | hf
        · -- the head field: every surviving branch refutes badField
          subst hf
          simp only [deriveFieldsF] at h
          split at h
          · rename_i hc
            have hE : isExportedName fn = false := by
              cases hE : isExportedName fn
              · rfl
              · exact absurd hE hc.2
            simp [badField, hE]
          · split at h
            · rename_i hc2
              simp [badField, hc2]
            · split at h
              · rename_i hc3
                rcases hc3 with hc3 | hc3 <;> simp [badField, hc3]
              · split at h
                · rename_i hc4
                  simp [badField, getFieldType_struct_kind hc4.1]
                · split at h
                  · rename_i fty hfty
                    have hne : getFieldType ty ≠ .unknown := by
                      intro hu
                      unfold getFieldTypeFromStructField at hfty
                      rw [if_pos hu] at hfty
                      cases hfty
                    simp [badField, hne]
                  · cases h
                  · cases h
        · -- a later field: peel the head and recurse at the smaller fuel
          simp only [deriveFieldsF] at h
          split at h
          · exact ihC _ _ _ _ h f hf
          · split at h
            · exact ihC _ _ _ _ h f hf
            · split at h
              · exact ihC _ _ _ _ h f hf
              · split at h
                · split at h
                  · split at h
                    · exact ihC _ _ _ _ h f hf
                    · exact ihC _ _ _ _ h f hf
                  · cases h
                  · cases h
                · split at h
                  · split at h
                    · split at h
                      · split at h
                        · exact ihC _ _ _ _ h f hf
                        · cases h
                        · cases h
                      · exact ihC _ _ _ _ h f hf
                    · exact ihC _ _ _ _ h f hf
                  · cases h
                  · cases h

/-- C6: schema derivation never returns a `FieldConfig` whose type tag is
outside the closed enumeration: every completed derivation is recursively
`unknown`-free, a field with no type mapping that is exported and not
excluded forces the derivation to abort (there is no completed run
containing such a field), and a concrete chan-typed field panics with the
source's message. -/
theorem derivation_rejects_unknown :
    (∀ (t : GoType) (v : GoValue) (cfg : List (String × FieldConfig)),
      getFieldConfig t v = .ok cfg → cfgKnown cfg = true) ∧
    (∀ (fuel : Nat) (flds : List (SField GoType)) (vals : List GoValue)
       (acc res : List (String × FieldConfig)),
      deriveFieldsF fuel flds vals acc = .ok res →
      ∀ f ∈ flds, badField f = false) ∧
    getFieldConfig (tPtr chanFieldT) (vPtr (zeroValue chanFieldT))
      = .panicked "unknown type, name: \"Events\", string: \"chan\"" :=
  ⟨fun t v cfg h => (derivAux _).1 t v cfg h,
   fun fuel => (derivAux fuel).2.2,
   rfl⟩

/-- C6 witness: a concrete completed derivation whose schema is
`unknown`-free. -/
theorem derivation_rejects_unknown_witness :
    cfgKnown [("Percpu", FieldConfig.mk .fBool none "" false .unknown [])]
      = true :=
  derivation_rejects_unknown.1 (tPtr percpuT) (vPtr (zeroValue percpuT)) _ rfl

/-! ### C1 -/

/-- C1 counterexample: a field-value set literally conforming to the derived
schema does not round-trip.  The schema of `percpuT` is keyed by the Go
field name `"Percpu"`, but the binder resolves only the toml tag or the
snake-case name, so binding `{"Percpu": true}` silently changes nothing, and
extracting the still-zero instance yields the empty set, not the original
set. -/
theorem roundtrip_schema_keys_fail :
    getFieldConfig (tPtr percpuT) (vPtr (zeroValue percpuT))
      = .ok [("Percpu", FieldConfig.mk .fBool none "" false .unknown [])] ∧
    setFieldConfig [("Percpu", vBool true)] (tPtr percpuT)
      (vPtr (zeroValue percpuT)) = .ok (vPtr (vStruct [vBool false])) ∧
    extractStruct percpuT (vStruct [vBool false]) = .ok [] ∧
    ([] : List (String × GoValue)) ≠ [("Percpu", vBool true)] :=
  ⟨rfl, rfl, rfl, by simp⟩

set_option maxRecDepth 200000 in
/-- C1 (amended): the round-trip holds when the field-value set is keyed by
the convention-derived external (snake-case) names, covers every field, and
every value is non-zero: binding `demoCfg` onto a fresh `demoT` instance and
extracting it returns exactly the original set with duration- and size-typed
entries canonicalised to their text form. -/
theorem roundtrip_external_names :
    setFieldConfig demoCfg (tPtr demoT) (vPtr (zeroValue demoT))
      = .ok (vPtr (vStruct [vBool true, vInt .iw64 100, vInt .iw64 64000000,
          vString "cpu", vInt .iw64 5400000000000])) ∧
    extractStruct demoT
        (vStruct [vBool true, vInt .iw64 100, vInt .iw64 64000000,
          vString "cpu", vInt .iw64 5400000000000])
      = .ok (List.zipWith (fun (e : String × GoValue) ty => (e.1, canonV ty e.2))
          demoCfg [tBool, tInt .iw64, tSize, tString, tDuration]) :=
  ⟨rfl, rfl⟩

end ConfigApi
